import Mathlib

/-!
Shallow embedding of the `blogicum` blog application (files
`blog/views.py` and `blog/forms.py`), together with theorems that settle
the claims about its visibility, listing, and mutation behaviour.

Users are identified by their id (`Nat`); a viewer is `Option Nat`
(`none` = the anonymous user, which Django guarantees never compares
equal to any author).  Timestamps are `Int`; `now` is passed explicitly,
mirroring `timezone.now()` evaluated at call time.

The models file of the repository is not part of the sources; the record
shapes below follow spec §3 ("Data Model"): a post has an optional
category, an optional location, an optional image, a required author.
-/

/-- A blog category (spec §3): `is_published` controls whether posts in
it are publicly listed; `slug` identifies it in the category feed URL. -/
structure Category where
  id : Nat
  slug : String
  is_published : Bool
deriving DecidableEq, Repr

/-- A location (spec §3).  Never consulted by any visibility filter in
`views.py`; carried for faithfulness to the data model. -/
structure Location where
  id : Nat
  name : String
  is_published : Bool
deriving DecidableEq, Repr

/-- A post (spec §3).  `category` is optional ("a post optionally
belongs to one category"); `author` is the owning user's id. -/
structure Post where
  id : Nat
  author : Nat
  title : String
  text : String
  pub_date : Int
  is_published : Bool
  category : Option Category
  location : Option Location
  image : Option String
  created_at : Int
deriving DecidableEq, Repr

/-- A comment (spec §3): body text, author, required parent post. -/
structure Comment where
  id : Nat
  author : Nat
  postId : Nat
  text : String
  created_at : Int
deriving DecidableEq, Repr

/-- The content store (the relational database): all post and comment
rows, in insertion order. -/
structure Store where
  posts : List Post
  comments : List Comment
deriving DecidableEq, Repr

/-- HTTP method of a request, as the views distinguish it:
`request.method == 'POST'` versus everything else. -/
inductive Method where
  | GET
  | POST
deriving DecidableEq, Repr

/-- Submitted comment-form data.  `CommentForm` (forms.py) declares
`fields = ['text']`, so `authorField` and `postField` model extra
client-supplied data that the form never reads. -/
structure CommentFormData where
  text : String
  authorField : Option Nat
  postField : Option Nat
deriving DecidableEq, Repr

/-- Submitted post-form data.  `PostForm` (forms.py) excludes only
`author` and `created_at`, so `is_published` and `pub_date` are
client-editable fields. -/
structure PostFormData where
  title : String
  text : String
  pub_date : Int
  is_published : Bool
  category : Option Category
  location : Option Location
  image : Option String
deriving DecidableEq, Repr

/-- The outcome of a handler, at the granularity the claims need.
`render` carries the template name and the comment list passed in the
context (empty when the template shows no thread); `notFound` covers
both `get_object_or_404` and `render('pages/404.html', status=404)`,
which are both 404 responses; `serverError` is an uncaught Python
exception (a 5xx). -/
inductive Response where
  | render (template : String) (comments : List Comment)
  | redirectDetail (postId : Nat)
  | redirectProfile (userId : Nat)
  | redirectLogin
  | notFound
  | serverError
deriving DecidableEq, Repr

/-- `CommentForm.is_valid()`: the single field `text` maps to a model
`TextField`, required and non-blank by default, so the form validates
iff the submitted text is nonempty. -/
def commentFormValid (fd : CommentFormData) : Bool :=
  fd.text ≠ ""

/-- `PostForm.is_valid()`: the required text fields of the model
(title, body) must be non-blank; `pub_date` is always present as a
typed value here. -/
def postFormValid (fd : PostFormData) : Bool :=
  fd.title ≠ "" && fd.text ≠ ""

/-- The public-visibility filter used by the feeds
(`views.py:index`, lines 19-23; also `category_posts` and the
non-owner branch of `profile`):
`filter(is_published=True, category__is_published=True,
pub_date__lte=timezone.now())`.
The `category__is_published=True` lookup is an inner join on the
category table, so a post whose `category` is NULL is excluded by it. -/
def publiclyVisible (now : Int) (p : Post) : Bool :=
  p.is_published
    && (match p.category with
        | some c => c.is_published
        | none => false)
    && decide (p.pub_date ≤ now)

/-- Modelled from the spec: the spec's own wording of the invariant
(§3): "a post is publicly visible iff `is_published == true` AND its
category (if any, else vacuously true) has `is_published == true` AND
`pub_date <= now`" — vacuously true when the post has no category.
Defined only to be compared against `publiclyVisible`, the predicate
the source actually evaluates. -/
def specPubliclyVisible (now : Int) (p : Post) : Bool :=
  p.is_published
    && (match p.category with
        | some c => c.is_published
        | none => true)
    && decide (p.pub_date ≤ now)

/-- The `can_view` expression of `post_detail` (views.py lines 42-45):
`post.is_published and post.category.is_published and
post.pub_date <= timezone.now()`.
Python's `and` short-circuits, so when `is_published` is falsy the
category is never touched; but when `is_published` is true and the post
has no category, `post.category` is `None` and `.is_published` raises
`AttributeError` — modelled as `Except.error`. -/
def canViewE (now : Int) (p : Post) : Except Unit Bool :=
  if p.is_published then
    match p.category with
    | none => Except.error ()
    | some c =>
        if c.is_published then Except.ok (decide (p.pub_date ≤ now))
        else Except.ok false
  else Except.ok false

/-- Ordering relation realised by `order_by('-pub_date')`: compares
publish timestamps only, descending.  Ties between equal timestamps are
not constrained by the query; the sort below is stable, so tied rows
keep the store's insertion order. -/
def postOrder (a b : Post) : Prop :=
  b.pub_date ≤ a.pub_date

instance : DecidableRel postOrder := fun a b =>
  inferInstanceAs (Decidable (b.pub_date ≤ a.pub_date))

instance : IsTotal Post postOrder :=
  ⟨fun a b => le_total b.pub_date a.pub_date⟩

instance : IsTrans Post postOrder :=
  ⟨fun _ _ _ h h' => le_trans h' h⟩

/-- `order_by('-pub_date')` as a stable sort of the candidate rows. -/
def sortPosts (l : List Post) : List Post :=
  List.insertionSort postOrder l

/-- Row lookup by primary key (`get_object_or_404(Post, id=id)` /
`Post.objects.get(id=id)`). -/
def findPost (st : Store) (id : Nat) : Option Post :=
  st.posts.find? (fun p => p.id = id)

/-- `get_object_or_404(Comment, id=comment_id, post_id=id)`. -/
def findComment (st : Store) (id commentId : Nat) : Option Comment :=
  st.comments.find? (fun c => c.id = commentId && c.postId = id)

/-- Next autoincrement id for a comment row. -/
def nextCommentId (st : Store) : Nat :=
  (st.comments.map (fun c => c.id)).foldr Nat.max 0 + 1

/-- Next autoincrement id for a post row. -/
def nextPostId (st : Store) : Nat :=
  (st.posts.map (fun p => p.id)).foldr Nat.max 0 + 1

/-- The comment row written by a valid comment save (views.py 56-59 and
237-240): `comment.post` and `comment.author` are assigned
server-side; only `text` comes from the form. -/
def newComment (now : Int) (st : Store) (u : Nat) (text : String)
    (postId : Nat) : Comment :=
  { id := nextCommentId st, author := u, postId := postId,
    text := text, created_at := now }

/-- The row written by a valid `post_edit` save (views.py 197-202): the
form's fields over the loaded instance, with `is_published` re-derived
from `pub_date` alone — `False` when future, `True` otherwise. -/
def editedPost (now : Int) (fd : PostFormData) (post : Post) : Post :=
  { post with
    title := fd.title,
    text := fd.text,
    pub_date := fd.pub_date,
    is_published := if now < fd.pub_date then false else true,
    category := fd.category,
    location := fd.location,
    image := fd.image }

/-- The row written by a valid `post_create` save (views.py 173-179):
`author = request.user`; `is_published` is forced to `False` only when
`pub_date` is in the future, else the submitted value is kept. -/
def createdPost (now : Int) (st : Store) (u : Nat)
    (fd : PostFormData) : Post :=
  { id := nextPostId st,
    author := u,
    title := fd.title,
    text := fd.text,
    pub_date := fd.pub_date,
    is_published := if now < fd.pub_date then false else fd.is_published,
    category := fd.category,
    location := fd.location,
    image := fd.image,
    created_at := now }

/-- `views.py:index` (lines 16-33): the global feed's post list —
the visibility filter then `order_by('-pub_date')`.  (Pagination slices
this list and is out of scope per spec §1.) -/
def index (now : Int) (st : Store) : List Post :=
  sortPosts (st.posts.filter (fun p => publiclyVisible now p))

/-- `views.py:category_posts` (lines 74-98): 404 when the category is
absent or unpublished, else posts of that category filtered by
`is_published=True, pub_date__lte=now` (the category itself is already
known published) and ordered by `-pub_date`. -/
def category_posts (now : Int) (st : Store) (cat : Option Category) :
    Except Unit (List Post) :=
  match cat with
  | none => Except.error ()
  | some c =>
      if c.is_published then
        Except.ok (sortPosts (st.posts.filter
          (fun p => p.category = some c && p.is_published
            && decide (p.pub_date ≤ now))))
      else Except.error ()

/-- `views.py:profile` (lines 101-133): the profile feed's post list.
When the viewer is the profile owner, all of the owner's posts with no
visibility filter; otherwise the full public-visibility filter. -/
def profile (now : Int) (st : Store) (viewer : Option Nat)
    (userId : Nat) : List Post :=
  if viewer = some userId then
    sortPosts (st.posts.filter (fun p => p.author = userId))
  else
    sortPosts (st.posts.filter
      (fun p => p.author = userId && publiclyVisible now p))

/-- `views.py:post_detail` (lines 36-71).  Loads the post (404 when
absent), evaluates `can_view` (which can raise, see `canViewE`),
404s when neither visible nor author, then processes an authenticated
comment POST (valid: save with server-assigned author and post, then
redirect; invalid: fall through and re-render the bound form), else
renders the detail template with the post's full comment thread. -/
def post_detail (now : Int) (st : Store) (viewer : Option Nat)
    (method : Method) (fd : CommentFormData) (id : Nat) :
    Response × Store :=
  match findPost st id with
  | none => (Response.notFound, st)
  | some post =>
    match canViewE now post with
    | Except.error _ => (Response.serverError, st)
    | Except.ok canView =>
      let isAuthor := viewer = some post.author
      if ¬canView ∧ ¬isAuthor then (Response.notFound, st)
      else
        let comments := st.comments.filter (fun c => c.postId = post.id)
        match method, viewer with
        | Method.POST, some u =>
            if commentFormValid fd then
              (Response.redirectDetail id,
                { st with comments :=
                    st.comments ++ [newComment now st u fd.text post.id] })
            else (Response.render "blog/detail.html" comments, st)
        | _, _ => (Response.render "blog/detail.html" comments, st)

/-- `views.py:post_create` (lines 168-184).  `@login_required` turns
the anonymous viewer away first.  On a valid POST the new post gets
`author = request.user`, and `is_published` is forced to `false` only
when `pub_date` is in the future (otherwise the submitted value is
kept); then redirect to the author's profile. -/
def post_create (now : Int) (st : Store) (viewer : Option Nat)
    (method : Method) (fd : PostFormData) : Response × Store :=
  match viewer with
  | none => (Response.redirectLogin, st)
  | some u =>
    match method with
    | Method.POST =>
        if postFormValid fd then
          (Response.redirectProfile u,
            { st with posts := st.posts ++ [createdPost now st u fd] })
        else (Response.render "blog/create.html" [], st)
    | Method.GET => (Response.render "blog/create.html" [], st)

/-- `views.py:post_edit` (lines 187-212).  `@login_required`; absent
post is a 404; a non-author is redirected to the post's detail view
with no write; on a valid POST the edited post's `is_published` is
re-derived from `pub_date` alone (`False` when future, `True`
otherwise, whatever was submitted) and the row is saved. -/
def post_edit (now : Int) (st : Store) (viewer : Option Nat)
    (method : Method) (fd : PostFormData) (id : Nat) :
    Response × Store :=
  match viewer with
  | none => (Response.redirectLogin, st)
  | some u =>
    match findPost st id with
    | none => (Response.notFound, st)
    | some post =>
      if post.author ≠ u then (Response.redirectDetail id, st)
      else
        match method with
        | Method.POST =>
            if postFormValid fd then
              (Response.redirectDetail id,
                { st with posts :=
                    st.posts.map (fun p =>
                      if p.id = id then editedPost now fd post else p) })
            else (Response.render "blog/create.html" [], st)
        | Method.GET => (Response.render "blog/create.html" [], st)

/-- `views.py:post_delete` (lines 215-227).  `@login_required`; a
non-author is redirected to the detail view with no write; on POST the
post row is removed and (spec §3, modelled from the spec since the
models file is absent: "deleted ... with immediate cascade delete of
dependent comments") its comments go with it. -/
def post_delete (st : Store) (viewer : Option Nat) (method : Method)
    (id : Nat) : Response × Store :=
  match viewer with
  | none => (Response.redirectLogin, st)
  | some u =>
    match findPost st id with
    | none => (Response.notFound, st)
    | some post =>
      if post.author ≠ u then (Response.redirectDetail id, st)
      else
        match method with
        | Method.POST =>
            (Response.redirectProfile u,
              { posts := st.posts.filter (fun p => decide (p.id ≠ id)),
                comments :=
                  st.comments.filter (fun c => decide (c.postId ≠ id)) })
        | Method.GET =>
            (Response.render "blog/detail.html" [], st)

/-- `views.py:add_comment` (lines 230-242).  `@login_required`; loads
the parent post from the URL id (404 when absent); on a valid POST
saves the comment with `author = request.user` and `post` = the loaded
post, ignoring any client-supplied author/post data; in every
non-anonymous, non-404 case the handler ends with
`redirect('blog:post_detail', id=id)` — including an invalid form,
whose errors are thereby discarded. -/
def add_comment (now : Int) (st : Store) (viewer : Option Nat)
    (method : Method) (fd : CommentFormData) (id : Nat) :
    Response × Store :=
  match viewer with
  | none => (Response.redirectLogin, st)
  | some u =>
    match findPost st id with
    | none => (Response.notFound, st)
    | some post =>
      match method with
      | Method.POST =>
          if commentFormValid fd then
            (Response.redirectDetail id,
              { st with comments :=
                  st.comments ++ [newComment now st u fd.text post.id] })
          else (Response.redirectDetail id, st)
      | Method.GET => (Response.redirectDetail id, st)

/-- `views.py:edit_comment` (lines 245-265).  `@login_required`; looks
the comment up by `(comment_id, post_id)` (404 when absent); a
non-author is redirected to the post's detail view with no write; a
valid POST rewrites the comment's text and redirects; otherwise the
comment form is rendered. -/
def edit_comment (st : Store) (viewer : Option Nat) (method : Method)
    (fd : CommentFormData) (id commentId : Nat) : Response × Store :=
  match viewer with
  | none => (Response.redirectLogin, st)
  | some u =>
    match findComment st id commentId with
    | none => (Response.notFound, st)
    | some comment =>
      if comment.author ≠ u then (Response.redirectDetail id, st)
      else
        match method with
        | Method.POST =>
            if commentFormValid fd then
              (Response.redirectDetail id,
                { st with comments :=
                    st.comments.map (fun c =>
                      if c.id = commentId ∧ c.postId = id then
                        { c with text := fd.text } else c) })
            else (Response.render "blog/comment.html" [], st)
        | Method.GET => (Response.render "blog/comment.html" [], st)

/-- `views.py:delete_comment` (lines 268-283).  `@login_required`;
404 when absent; a non-author is redirected with no write; POST removes
the row and redirects to the post's detail view. -/
def delete_comment (st : Store) (viewer : Option Nat) (method : Method)
    (id commentId : Nat) : Response × Store :=
  match viewer with
  | none => (Response.redirectLogin, st)
  | some u =>
    match findComment st id commentId with
    | none => (Response.notFound, st)
    | some comment =>
      if comment.author ≠ u then (Response.redirectDetail id, st)
      else
        match method with
        | Method.POST =>
            (Response.redirectDetail id,
              { st with comments :=
                  st.comments.filter (fun c =>
                    decide (¬(c.id = commentId ∧ c.postId = id))) })
        | Method.GET => (Response.render "blog/comment.html" [], st)

/-! Concrete rows used by the counterexamples and witnesses below. -/

/-- A published category. -/
def pubCat : Category := { id := 1, slug := "pub", is_published := true }

/-- An unpublished category. -/
def hidCat : Category := { id := 2, slug := "hid", is_published := false }

/-- A published, past-dated post with no category (spec §3 allows a
categoryless post). -/
def pNoCat : Post :=
  { id := 1, author := 10, title := "t1", text := "b1", pub_date := 0,
    is_published := true, category := none, location := none,
    image := none, created_at := 0 }

/-- A fully publicly visible post (for `now ≥ 0`). -/
def pPub : Post :=
  { id := 2, author := 10, title := "t2", text := "b2", pub_date := 0,
    is_published := true, category := some pubCat, location := none,
    image := none, created_at := 0 }

/-- An unpublished post by the same author. -/
def pUnpub : Post :=
  { id := 3, author := 10, title := "t3", text := "b3", pub_date := 0,
    is_published := false, category := some pubCat, location := none,
    image := none, created_at := 0 }

/-- Two visible posts with equal `pub_date` and ids 1 < 2. -/
def pTie1 : Post :=
  { id := 1, author := 10, title := "ta", text := "ba", pub_date := 5,
    is_published := true, category := some pubCat, location := none,
    image := none, created_at := 0 }

/-- See `pTie1`. -/
def pTie2 : Post :=
  { id := 2, author := 10, title := "tb", text := "bb", pub_date := 5,
    is_published := true, category := some pubCat, location := none,
    image := none, created_at := 0 }

/-- An invalid comment submission (blank text), with client-supplied
author/post data the form never reads. -/
def fdEmpty : CommentFormData :=
  { text := "", authorField := some 55, postField := some 44 }

/-- A valid comment submission, with client-supplied author/post data
the form never reads. -/
def fdOk : CommentFormData :=
  { text := "hi", authorField := some 77, postField := some 55 }

/-- A valid post submission with a past `pub_date` and the unpublished
box ticked. -/
def pfdPast : PostFormData :=
  { title := "t", text := "b", pub_date := 0, is_published := false,
    category := some pubCat, location := none, image := none }

/-- A valid post submission with a future `pub_date` (relative to
`now = 5`). -/
def pfdFuture : PostFormData :=
  { title := "t", text := "b", pub_date := 9, is_published := true,
    category := some pubCat, location := none, image := none }

/-- Store holding only the visible post `pPub`. -/
def stOne : Store := { posts := [pPub], comments := [] }

/-- Store holding only the categoryless post `pNoCat`. -/
def stNoCat : Store := { posts := [pNoCat], comments := [] }

/-- Store holding the two tied posts, in id order. -/
def stTie : Store := { posts := [pTie1, pTie2], comments := [] }

/-- A comment by user 10 on post 2. -/
def cmtW : Comment :=
  { id := 7, author := 10, postId := 2, text := "c", created_at := 0 }

/-- Store for the mutation-handler witnesses: post 2 and comment 7,
both owned by user 10. -/
def stMut : Store := { posts := [pPub, pUnpub], comments := [cmtW] }

/-! ### Helper lemmas shared by the claim theorems -/

/-- Unfolding of the feeds' visibility filter: the category must be
present *and* published. -/
theorem publiclyVisible_iff (now : Int) (p : Post) :
    publiclyVisible now p = true ↔
      p.is_published = true
        ∧ (∃ c, p.category = some c ∧ c.is_published = true)
        ∧ p.pub_date ≤ now := by
  unfold publiclyVisible
  cases hc : p.category with
  | none => simp [hc]
  | some c => simp [hc, and_assoc]

/-- Sorting permutes, so membership is preserved. -/
theorem mem_sortPosts {p : Post} {l : List Post} :
    p ∈ sortPosts l ↔ p ∈ l := by
  simp [sortPosts]

/-- Membership in the global feed is membership in the store plus the
visibility filter. -/
theorem mem_index (now : Int) (st : Store) (p : Post) :
    p ∈ index now st ↔ p ∈ st.posts ∧ publiclyVisible now p = true := by
  simp [index, sortPosts, List.mem_filter]

/-- On every post that is unpublished or has a category, `can_view`
evaluates without raising, to exactly the feeds' visibility filter. -/
theorem canViewE_eq_ok (now : Int) (p : Post)
    (h : p.is_published = false ∨ p.category ≠ none) :
    canViewE now p = Except.ok (publiclyVisible now p) := by
  unfold canViewE publiclyVisible
  rcases h with h | h
  · simp [h]
  · cases hc : p.category with
    | none => exact absurd hc h
    | some c =>
        cases hp : p.is_published <;> cases hcp : c.is_published <;>
          simp [hp, hcp, hc]

/-! ### Claim theorems -/

/-- C1, counterexample: `pNoCat` is published, past-dated and has no
category, so the claim's predicate (vacuous on a missing category)
holds of it, yet the filter the feeds evaluate rejects it and the
global feed omits it. -/
theorem C1_counterexample :
    pNoCat.is_published = true ∧ pNoCat.category = none
      ∧ pNoCat.pub_date ≤ (1 : Int)
      ∧ publiclyVisible 1 pNoCat = false
      ∧ specPubliclyVisible 1 pNoCat = true
      ∧ pNoCat ∉ index 1 stNoCat := by decide

/-- C1 (amended): the visibility predicate used by the feeds holds iff
`is_published`, the category is PRESENT with `is_published`, and
`pub_date ≤ now`; a post with no category is never publicly visible.
The global feed contains exactly the stored posts satisfying it. -/
theorem C1_public_visibility (now : Int) (st : Store) (p : Post) :
    (publiclyVisible now p = true ↔
        p.is_published = true
          ∧ (∃ c, p.category = some c ∧ c.is_published = true)
          ∧ p.pub_date ≤ now)
      ∧ (p ∈ index now st ↔ p ∈ st.posts ∧ publiclyVisible now p = true) :=
  ⟨publiclyVisible_iff now p, mem_index now st p⟩

/-- C1, witness: the amended characterisation evaluated at the visible
post `pPub` in the one-post store. -/
theorem C1_public_visibility_witness :
    (publiclyVisible 1 pPub = true ↔
        pPub.is_published = true
          ∧ (∃ c, pPub.category = some c ∧ c.is_published = true)
          ∧ pPub.pub_date ≤ 1)
      ∧ (pPub ∈ index 1 stOne ↔
          pPub ∈ stOne.posts ∧ publiclyVisible 1 pPub = true) :=
  C1_public_visibility 1 stOne pPub

/-- C3: the profile feed shows all of the owner's posts to the owner,
and exactly the owner's publicly visible posts to anyone else. -/
theorem C3_profile_feed (now : Int) (st : Store) (viewer : Option Nat)
    (u : Nat) (p : Post) :
    (viewer = some u →
      (p ∈ profile now st viewer u ↔ p ∈ st.posts ∧ p.author = u))
    ∧ (viewer ≠ some u →
      (p ∈ profile now st viewer u ↔
        p ∈ st.posts ∧ p.author = u ∧ publiclyVisible now p = true)) := by
  constructor
  · intro h
    simp [profile, h, sortPosts, List.mem_filter]
  · intro h
    simp [profile, h, sortPosts, List.mem_filter, and_assoc]

/-- C3, witness: the unpublished post `pUnpub` is in its author's own
profile feed and absent from the feed another user sees. -/
theorem C3_profile_feed_witness :
    pUnpub ∈ profile 1 stMut (some 10) 10
      ∧ pUnpub ∉ profile 1 stMut (some 99) 10 := by
  constructor
  · exact ((C3_profile_feed 1 stMut (some 10) 10 pUnpub).1 rfl).2
      (by decide)
  · intro hm
    have h := ((C3_profile_feed 1 stMut (some 99) 10 pUnpub).2
      (by decide)).1 hm
    exact absurd h.2.2 (by decide)

/-- C5, counterexample: the two visible posts of `stTie` share a
`pub_date`; the assembled global feed returns the SMALLER id first
(the query orders by `pub_date` alone and the stable sort keeps store
order), contradicting the claimed `(pub_date desc, id desc)` order. -/
theorem C5_counterexample :
    index 10 stTie = [pTie1, pTie2]
      ∧ pTie1.pub_date = pTie2.pub_date ∧ pTie1.id < pTie2.id := by
  decide

/-- C5 (amended): every listing is sorted by `pub_date` descending and
is a permutation of its filtered candidate set; the order of posts with
equal `pub_date` is not constrained by an id tiebreak (the query
specifies `-pub_date` only). -/
theorem C5_order_amended (now : Int) (st : Store) (viewer : Option Nat)
    (u : Nat) (c : Category) (hc : c.is_published = true) :
    (index now st).Sorted postOrder
      ∧ List.Perm (index now st)
          (st.posts.filter (fun p => publiclyVisible now p))
      ∧ (profile now st viewer u).Sorted postOrder
      ∧ (∃ l, category_posts now st (some c) = Except.ok l
            ∧ l.Sorted postOrder) := by
  refine ⟨List.sorted_insertionSort postOrder _,
    List.perm_insertionSort postOrder _, ?_, ?_⟩
  · unfold profile
    split <;> exact List.sorted_insertionSort postOrder _
  · refine ⟨sortPosts (st.posts.filter
        (fun p => p.category = some c && p.is_published
          && decide (p.pub_date ≤ now))), ?_, ?_⟩
    · simp [category_posts, hc]
    · exact List.sorted_insertionSort postOrder _

/-- C5, witness: the amended ordering guarantee at a concrete store. -/
theorem C5_order_amended_witness :
    pubCat.is_published = true
      ∧ ((index 1 stOne).Sorted postOrder
        ∧ List.Perm (index 1 stOne)
            (stOne.posts.filter (fun p => publiclyVisible 1 p))
        ∧ (profile 1 stOne (some 10) 10).Sorted postOrder
        ∧ (∃ l, category_posts 1 stOne (some pubCat) = Except.ok l
              ∧ l.Sorted postOrder)) :=
  ⟨by decide, C5_order_amended 1 stOne (some 10) 10 pubCat (by decide)⟩

/-- C2, counterexample: (a) `pNoCat` is not publicly visible and the
viewer is not its author, yet `post_detail` raises (`serverError`, the
`None.is_published` AttributeError) instead of responding 404;
(b) a valid authenticated comment POST on a visible post answers with a
redirect, not a render of the thread. -/
theorem C2_counterexample :
    (publiclyVisible 1 pNoCat = false
      ∧ pNoCat.author ≠ 99
      ∧ (post_detail 1 stNoCat (some 99) Method.GET fdEmpty pNoCat.id).1
          = Response.serverError)
    ∧ ((post_detail 1 stOne (some 99) Method.POST fdOk pPub.id).1
          = Response.redirectDetail pPub.id
      ∧ publiclyVisible 1 pPub = true) := by decide

/-- C2 (amended): for posts that are unpublished or carry a category
(`can_view` evaluates without raising there), the detail handler
answers 404 exactly when the post is not publicly visible and the
viewer is not its author; an absent id answers the same 404; and a GET
by an entitled viewer renders the post's full, unfiltered comment
thread.  (A published category-less post makes the handler raise, and
a successful authenticated comment POST redirects instead of
rendering.) -/
theorem C2_detail_not_found (now : Int) (st : Store) (viewer : Option Nat)
    (method : Method) (fd : CommentFormData) (p : Post) (j : Nat)
    (hp : findPost st p.id = some p)
    (hsafe : p.is_published = false ∨ p.category ≠ none) :
    ((post_detail now st viewer method fd p.id).1 = Response.notFound ↔
        ¬(publiclyVisible now p = true ∨ viewer = some p.author))
      ∧ (findPost st j = none →
          (post_detail now st viewer method fd j).1 = Response.notFound)
      ∧ ((publiclyVisible now p = true ∨ viewer = some p.author) →
          method = Method.GET →
          (post_detail now st viewer method fd p.id).1 =
            Response.render "blog/detail.html"
              (st.comments.filter (fun c => c.postId = p.id))) := by
  have hcv := canViewE_eq_ok now p hsafe
  refine ⟨?_, ?_, ?_⟩
  · unfold post_detail
    rw [hp]
    dsimp only
    rw [hcv]
    dsimp only
    by_cases hvis : publiclyVisible now p = true <;>
      by_cases hauth : viewer = some p.author <;>
        simp [hvis, hauth] <;>
          cases method <;> cases viewer <;>
            simp <;> split <;> simp
  · intro hj
    unfold post_detail
    rw [hj]
  · intro hva hm
    subst hm
    unfold post_detail
    rw [hp]
    dsimp only
    rw [hcv]
    dsimp only
    have hcond : ¬(¬(publiclyVisible now p = true)
        ∧ ¬(viewer = some p.author)) := by tauto
    simp [hcond]
    cases viewer with
    | none =>
        have hv : publiclyVisible now p = true :=
          hva.resolve_right (by simp)
        simp [hv]
    | some v =>
        by_cases hv : publiclyVisible now p = true
        · simp [hv]
        · have hau : v = p.author := by
            rcases hva with h | h
            · exact absurd h hv
            · exact Option.some.inj h
          simp [hau, hv]

/-- C2, witness: the amended statement at the visible post `pPub`,
anonymous viewer, GET: not a 404, and the full (empty) thread is
rendered. -/
theorem C2_detail_not_found_witness :
    (findPost stOne pPub.id = some pPub
      ∧ (pPub.is_published = false ∨ pPub.category ≠ none))
    ∧ (((post_detail 1 stOne none Method.GET fdEmpty pPub.id).1
          = Response.notFound ↔
        ¬(publiclyVisible 1 pPub = true ∨ none = some pPub.author))
      ∧ (findPost stOne 9 = none →
          (post_detail 1 stOne none Method.GET fdEmpty 9).1
            = Response.notFound)
      ∧ ((publiclyVisible 1 pPub = true ∨ none = some pPub.author) →
          Method.GET = Method.GET →
          (post_detail 1 stOne none Method.GET fdEmpty pPub.id).1 =
            Response.render "blog/detail.html"
              (stOne.comments.filter (fun c => c.postId = pPub.id)))) :=
  ⟨⟨by decide, by decide⟩,
    C2_detail_not_found 1 stOne none Method.GET fdEmpty pPub 9
      (by decide) (by decide)⟩

/-- C4: every edit/delete handler, for an authenticated viewer who is
not the entity's author, performs no write and redirects to the post's
detail view; the anonymous viewer is redirected to login before any
ownership check. -/
theorem C4_mutation_ownership (now : Int) (st : Store) (u : Nat)
    (method : Method) (pfd : PostFormData) (cfd : CommentFormData)
    (id cid : Nat) (p : Post) (c : Comment)
    (hp : findPost st id = some p) (hpa : p.author ≠ u)
    (hc : findComment st id cid = some c) (hca : c.author ≠ u) :
    post_edit now st (some u) method pfd id
        = (Response.redirectDetail id, st)
      ∧ post_delete st (some u) method id
          = (Response.redirectDetail id, st)
      ∧ edit_comment st (some u) method cfd id cid
          = (Response.redirectDetail id, st)
      ∧ delete_comment st (some u) method id cid
          = (Response.redirectDetail id, st)
      ∧ post_edit now st none method pfd id = (Response.redirectLogin, st)
      ∧ post_delete st none method id = (Response.redirectLogin, st)
      ∧ edit_comment st none method cfd id cid
          = (Response.redirectLogin, st)
      ∧ delete_comment st none method id cid
          = (Response.redirectLogin, st) := by
  refine ⟨?_, ?_, ?_, ?_, rfl, rfl, rfl, rfl⟩ <;>
    simp [post_edit, post_delete, edit_comment, delete_comment,
      hp, hc, hpa, hca]

/-- C4, witness: user 99 attempting to edit/delete post 2 and comment 7
(both owned by user 10) is redirected with the store unchanged. -/
theorem C4_mutation_ownership_witness :
    (findPost stMut 2 = some pPub ∧ pPub.author ≠ 99
      ∧ findComment stMut 2 7 = some cmtW ∧ cmtW.author ≠ 99)
    ∧ (post_edit 1 stMut (some 99) Method.POST pfdPast 2
          = (Response.redirectDetail 2, stMut)
      ∧ post_delete stMut (some 99) Method.POST 2
          = (Response.redirectDetail 2, stMut)
      ∧ edit_comment stMut (some 99) Method.POST fdOk 2 7
          = (Response.redirectDetail 2, stMut)
      ∧ delete_comment stMut (some 99) Method.POST 2 7
          = (Response.redirectDetail 2, stMut)
      ∧ post_edit 1 stMut none Method.POST pfdPast 2
          = (Response.redirectLogin, stMut)
      ∧ post_delete stMut none Method.POST 2
          = (Response.redirectLogin, stMut)
      ∧ edit_comment stMut none Method.POST fdOk 2 7
          = (Response.redirectLogin, stMut)
      ∧ delete_comment stMut none Method.POST 2 7
          = (Response.redirectLogin, stMut)) :=
  ⟨by decide,
    C4_mutation_ownership 1 stMut 99 Method.POST pfdPast fdOk 2 7
      pPub cmtW (by decide) (by decide) (by decide) (by decide)⟩

/-- C6: a valid authenticated comment submission stores a comment whose
author is the viewer and whose parent is the post named by the URL id —
whatever author/post data the client submitted — and redirects to that
post's detail view. -/
theorem C6_add_comment_server_assigns (now : Int) (st : Store) (u : Nat)
    (fd : CommentFormData) (id : Nat) (p : Post)
    (hp : findPost st id = some p) (hv : commentFormValid fd = true) :
    ∃ c : Comment,
      add_comment now st (some u) Method.POST fd id =
        (Response.redirectDetail id,
          { st with comments := st.comments ++ [c] })
      ∧ c.author = u ∧ c.postId = id ∧ c.text = fd.text := by
  have hp' := hp
  unfold findPost at hp'
  have hid : p.id = id := by
    have h := List.find?_some hp'
    exact of_decide_eq_true h
  refine ⟨newComment now st u fd.text p.id, ?_, rfl, hid, rfl⟩
  unfold add_comment
  rw [hp]
  dsimp only
  simp [hv]

/-- C6, witness: user 99's valid submission (whose form data carries a
foreign author and post id) lands on post 2 with author 99. -/
theorem C6_add_comment_server_assigns_witness :
    (findPost stOne 2 = some pPub ∧ commentFormValid fdOk = true)
    ∧ ∃ c : Comment,
        add_comment 1 stOne (some 99) Method.POST fdOk 2 =
          (Response.redirectDetail 2,
            { stOne with comments := stOne.comments ++ [c] })
        ∧ c.author = 99 ∧ c.postId = 2 ∧ c.text = fdOk.text :=
  ⟨⟨by decide, by decide⟩,
    C6_add_comment_server_assigns 1 stOne 99 fdOk 2 pPub
      (by decide) (by decide)⟩

/-- C7: with a future `pub_date`, an owner's valid edit saves the post
with `is_published = false`, and creation likewise appends a post with
`is_published = false`. -/
theorem C7_future_pub_date_unpublishes (now : Int) (st : Store) (u : Nat)
    (fd : PostFormData) (id : Nat) (p : Post)
    (hp : findPost st id = some p) (hpa : p.author = u)
    (hvalid : postFormValid fd = true) (hfut : now < fd.pub_date) :
    (∀ q ∈ (post_edit now st (some u) Method.POST fd id).2.posts,
        q.id = id → q.is_published = false)
      ∧ (post_edit now st (some u) Method.POST fd id).1
          = Response.redirectDetail id
      ∧ (∃ q, (post_create now st (some u) Method.POST fd).2.posts
            = st.posts ++ [q]
          ∧ q.is_published = false ∧ q.pub_date = fd.pub_date
          ∧ q.author = u) := by
  have heq : post_edit now st (some u) Method.POST fd id
      = (Response.redirectDetail id,
         { st with posts := st.posts.map (fun q =>
             if q.id = id then editedPost now fd p else q) }) := by
    unfold post_edit
    rw [hp]
    dsimp only
    simp [hpa, hvalid]
  have hcrt : post_create now st (some u) Method.POST fd
      = (Response.redirectProfile u,
         { st with posts := st.posts ++ [createdPost now st u fd] }) := by
    unfold post_create
    dsimp only
    simp [hvalid]
  refine ⟨?_, by rw [heq], ?_⟩
  · intro q hq hqid
    rw [heq] at hq
    simp only [List.mem_map] at hq
    obtain ⟨r, hr, hqr⟩ := hq
    by_cases hrid : r.id = id
    · rw [← hqr, if_pos hrid]
      simp [editedPost, hfut]
    · rw [← hqr, if_neg hrid] at hqid
      exact absurd hqid hrid
  · refine ⟨createdPost now st u fd, by rw [hcrt], ?_, rfl, rfl⟩
    simp [createdPost, hfut]

/-- C7, witness: editing post 2 (owner 10) to `pub_date = 9` when
`now = 5` leaves it unpublished; creating with the same data appends an
unpublished post. -/
theorem C7_future_pub_date_unpublishes_witness :
    (findPost stOne 2 = some pPub ∧ pPub.author = 10
      ∧ postFormValid pfdFuture = true ∧ (5 : Int) < pfdFuture.pub_date)
    ∧ ((∀ q ∈ (post_edit 5 stOne (some 10) Method.POST pfdFuture 2).2.posts,
          q.id = 2 → q.is_published = false)
      ∧ (post_edit 5 stOne (some 10) Method.POST pfdFuture 2).1
          = Response.redirectDetail 2
      ∧ (∃ q, (post_create 5 stOne (some 10) Method.POST pfdFuture).2.posts
            = stOne.posts ++ [q]
          ∧ q.is_published = false ∧ q.pub_date = pfdFuture.pub_date
          ∧ q.author = 10)) :=
  ⟨⟨by decide, by decide, by decide, by decide⟩,
    C7_future_pub_date_unpublishes 5 stOne 10 pfdFuture 2 pPub
      (by decide) (by decide) (by decide) (by decide)⟩

/-- C8, counterexample: an authenticated, malformed (blank) comment
submission to the dedicated comment-create handler writes nothing but
answers with a REDIRECT to the detail view, not an inline re-render of
the form with its errors. -/
theorem C8_counterexample :
    commentFormValid fdEmpty = false
      ∧ add_comment 1 stOne (some 99) Method.POST fdEmpty 2
          = (Response.redirectDetail 2, stOne) := by decide

/-- C8 (amended): a malformed authenticated comment submission writes
no comment row in either handler; the detail-view handler re-renders
the form inline, while the dedicated comment-create handler redirects
to the detail view (discarding the errors). -/
theorem C8_invalid_comment_no_write (now : Int) (st : Store) (u : Nat)
    (fd : CommentFormData) (p : Post)
    (hp : findPost st p.id = some p)
    (hinv : commentFormValid fd = false)
    (hvis : publiclyVisible now p = true) :
    add_comment now st (some u) Method.POST fd p.id
        = (Response.redirectDetail p.id, st)
      ∧ post_detail now st (some u) Method.POST fd p.id
          = (Response.render "blog/detail.html"
              (st.comments.filter (fun c => c.postId = p.id)), st) := by
  obtain ⟨-, ⟨c, hc, -⟩, -⟩ := (publiclyVisible_iff now p).mp hvis
  have hcv := canViewE_eq_ok now p (Or.inr (by simp [hc]))
  constructor
  · unfold add_comment
    rw [hp]
    dsimp only
    simp [hinv]
  · unfold post_detail
    rw [hp]
    dsimp only
    rw [hcv]
    dsimp only
    simp [hvis, hinv]

/-- C8, witness: the blank submission at the visible post `pPub`. -/
theorem C8_invalid_comment_no_write_witness :
    (findPost stOne pPub.id = some pPub
      ∧ commentFormValid fdEmpty = false
      ∧ publiclyVisible 1 pPub = true)
    ∧ (add_comment 1 stOne (some 99) Method.POST fdEmpty pPub.id
        = (Response.redirectDetail pPub.id, stOne)
      ∧ post_detail 1 stOne (some 99) Method.POST fdEmpty pPub.id
          = (Response.render "blog/detail.html"
              (stOne.comments.filter (fun c => c.postId = pPub.id)),
            stOne)) :=
  ⟨⟨by decide, by decide, by decide⟩,
    C8_invalid_comment_no_write 1 stOne 99 fdEmpty pPub
      (by decide) (by decide) (by decide)⟩

/-- C9: an anonymous comment POST to the detail endpoint writes nothing
and never answers with a redirect to a detail view; the dedicated
comment-create endpoint sends the anonymous viewer to login. -/
theorem C9_unauthenticated_comment (now : Int) (st : Store)
    (method : Method) (fd : CommentFormData) (id : Nat) :
    (post_detail now st none Method.POST fd id).2 = st
      ∧ (∀ j, (post_detail now st none Method.POST fd id).1
          ≠ Response.redirectDetail j)
      ∧ add_comment now st none method fd id
          = (Response.redirectLogin, st) := by
  have key : (post_detail now st none Method.POST fd id).2 = st
      ∧ ∀ j, (post_detail now st none Method.POST fd id).1
          ≠ Response.redirectDetail j := by
    unfold post_detail
    cases hfp : findPost st id with
    | none => simp
    | some p =>
        dsimp only
        generalize canViewE now p = r
        cases r with
        | error e => simp
        | ok b =>
            dsimp only
            split <;> simp
  exact ⟨key.1, key.2, rfl⟩

/-- C9, witness: the anonymous POST of a well-formed comment at the
visible post `pPub`. -/
theorem C9_unauthenticated_comment_witness :
    (post_detail 1 stOne none Method.POST fdOk 2).2 = stOne
      ∧ (∀ j, (post_detail 1 stOne none Method.POST fdOk 2).1
          ≠ Response.redirectDetail j)
      ∧ add_comment 1 stOne none Method.POST fdOk 2
          = (Response.redirectLogin, stOne) :=
  C9_unauthenticated_comment 1 stOne Method.POST fdOk 2

/-- C10: an owner's valid edit re-derives `is_published` as
`pub_date ≤ now`, whatever value the form submitted; creation keeps the
submitted value whenever `pub_date` is not in the future. -/
theorem C10_edit_rederives_published (now : Int) (st : Store) (u : Nat)
    (fd : PostFormData) (id : Nat) (p : Post)
    (hp : findPost st id = some p) (hpa : p.author = u)
    (hvalid : postFormValid fd = true) :
    (∀ q ∈ (post_edit now st (some u) Method.POST fd id).2.posts,
        q.id = id → q.is_published = decide (fd.pub_date ≤ now))
      ∧ (fd.pub_date ≤ now →
          ∃ q, (post_create now st (some u) Method.POST fd).2.posts
              = st.posts ++ [q]
            ∧ q.is_published = fd.is_published) := by
  have heq : post_edit now st (some u) Method.POST fd id
      = (Response.redirectDetail id,
         { st with posts := st.posts.map (fun q =>
             if q.id = id then editedPost now fd p else q) }) := by
    unfold post_edit
    rw [hp]
    dsimp only
    simp [hpa, hvalid]
  constructor
  · intro q hq hqid
    rw [heq] at hq
    simp only [List.mem_map] at hq
    obtain ⟨r, hr, hqr⟩ := hq
    by_cases hrid : r.id = id
    · rw [← hqr, if_pos hrid]
      show (editedPost now fd p).is_published = decide (fd.pub_date ≤ now)
      unfold editedPost
      by_cases h : now < fd.pub_date
      · rw [if_pos h, decide_eq_false (not_le.mpr h)]
      · rw [if_neg h, decide_eq_true (not_lt.mp h)]
    · rw [← hqr, if_neg hrid] at hqid
      exact absurd hqid hrid
  · intro hpast
    have hcrt : post_create now st (some u) Method.POST fd
        = (Response.redirectProfile u,
           { st with posts := st.posts ++ [createdPost now st u fd] }) := by
      unfold post_create
      dsimp only
      simp [hvalid]
    refine ⟨createdPost now st u fd, by rw [hcrt], ?_⟩
    simp [createdPost, not_lt.mpr hpast]

/-- C10, witness: user 10 edits the (deliberately unpublished) post 3
with a past `pub_date` and an unticked published box; the saved row is
published anyway, while creation with the same data stays
unpublished. -/
theorem C10_edit_rederives_published_witness :
    (findPost stMut 3 = some pUnpub ∧ pUnpub.author = 10
      ∧ postFormValid pfdPast = true)
    ∧ ((∀ q ∈ (post_edit 5 stMut (some 10) Method.POST pfdPast 3).2.posts,
          q.id = 3 → q.is_published = decide (pfdPast.pub_date ≤ (5 : Int)))
      ∧ (pfdPast.pub_date ≤ (5 : Int) →
          ∃ q, (post_create 5 stMut (some 10) Method.POST pfdPast).2.posts
              = stMut.posts ++ [q]
            ∧ q.is_published = pfdPast.is_published)) :=
  ⟨⟨by decide, by decide, by decide⟩,
    C10_edit_rederives_published 5 stMut 10 pfdPast 3 pUnpub
      (by decide) (by decide) (by decide)⟩
